import Mathlib

/-!
Verification of the LSP client subsystem of superdb-mcp
(`src/lib/lsp-client.ts`, `src/tools/lsp.ts`).

Modelling conventions:
* JavaScript strings are modelled as `List Char` (one entry per UTF-16 code
  unit; every string occurring in these claims is surrogate-free, so code
  units and characters coincide).  `s.length` in JS is `List.length`.
* JSON values flowing through the adapters are modelled by the inductive
  `Json`; JS truthiness and `typeof` checks are modelled explicitly.
* `JSON.parse` inside `parseMessages` is abstracted as a decoder parameter
  `decode : List Char → Option M`; everything else in the framer is a direct
  transcription of the source.
* Fallible/stateful code becomes explicit state passing; the session driver's
  event handlers become a step function on a session-state record.
-/

namespace SuperdbMcp

/-- The literal `"Content-Length: "` from the header template in
`formatMessage` and the header regexp in `parseMessages`. -/
def headerLit : List Char := "Content-Length: ".data

/-- The literal `"\r\n\r\n"` separating header from body. -/
def crlf2 : List Char := "\r\n\r\n".data

/-- Strip an expected literal from the front of a list, returning the rest;
models the anchored literal part of the header regexp. -/
def dropLit : List Char → List Char → Option (List Char)
  | [], rest => some rest
  | _ :: _, [] => none
  | p :: ps, c :: cs => if c = p then dropLit ps cs else none

/-- Decimal digits of `n`, fuel-indexed so the recursion is structural.
`fuel` bounds the number of digits; any `fuel ≥ n + 1` is enough. -/
def natDigitsAux : Nat → Nat → List Char
  | 0, _ => []
  | fuel + 1, n =>
    if n < 10 then [Nat.digitChar n]
    else natDigitsAux fuel (n / 10) ++ [Nat.digitChar (n % 10)]

/-- The decimal representation of `n`: what JS template-string interpolation
produces for the number `content.length`. -/
def natDigits (n : Nat) : List Char := natDigitsAux (n + 1) n

/-- Value of a digit string: the embedding of `parseInt` on the digits
captured by the header regexp. -/
def digitsToNat (ds : List Char) : Nat :=
  ds.foldl (fun acc c => 10 * acc + (c.toNat - 48)) 0

/-- Number of bytes in the UTF-8 encoding of one character. -/
def utf8Width (c : Char) : Nat :=
  if c.toNat < 0x80 then 1
  else if c.toNat < 0x800 then 2
  else if c.toNat < 0x10000 then 3
  else 4

/-- Number of bytes in the UTF-8 encoding of a string. -/
def utf8ByteLength (s : List Char) : Nat := (s.map utf8Width).sum

/-- `formatMessage` (src/lib/lsp-client.ts:132-135) applied to the serialized
message text `content = JSON.stringify({jsonrpc:'2.0', ...message})`:
builds `` `Content-Length: ${content.length}\r\n\r\n${content}` ``.
Note the announced number is `content.length`, the code-unit count. -/
def formatMessage (content : List Char) : List Char :=
  headerLit ++ natDigits content.length ++ crlf2 ++ content

/-- The header part of a frame announcing body length `n`. -/
def headerOf (n : Nat) : List Char := headerLit ++ natDigits n ++ crlf2

/-- The anchored header regexp `^Content-Length: (\d+)\r\n\r\n` of
`parseMessages` (src/lib/lsp-client.ts:145): on a match, returns
`(parseInt(match[1]), match[0].length)`, i.e. announced content length and
header length.  The regexp's `\d+` is the maximal digit run (backtracking to
a shorter run can never help, since the following character would then be a
digit while the regexp demands `\r`). -/
def matchHeader (remaining : List Char) : Option (Nat × Nat) :=
  match dropLit headerLit remaining with
  | none => none
  | some afterLit =>
    let digits := afterLit.takeWhile Char.isDigit
    let afterDigits := afterLit.dropWhile Char.isDigit
    if digits = [] then none
    else
      match dropLit crlf2 afterDigits with
      | none => none
      | some _ => some (digitsToNat digits, headerLit.length + digits.length + crlf2.length)

/-- The scanning loop of `parseMessages` (src/lib/lsp-client.ts:140-163),
fuel-indexed so the recursion is structural; each iteration consumes at least
the header (≥ 21 characters), so `fuel = buffer.length` always suffices.
A frame whose body fails to decode is skipped and scanning continues
(the `try { ... } catch { /- skip -/ }` around `JSON.parse`). -/
def parseMessagesAux {M : Type} (decode : List Char → Option M) :
    Nat → List Char → List M
  | 0, _ => []
  | fuel + 1, remaining =>
    match matchHeader remaining with
    | none => []
    | some (contentLength, headerLength) =>
      if remaining.length < headerLength + contentLength then []
      else
        let body := (remaining.drop headerLength).take contentLength
        let rest := remaining.drop (headerLength + contentLength)
        match decode body with
        | some m => m :: parseMessagesAux decode fuel rest
        | none => parseMessagesAux decode fuel rest

/-- `parseMessages` (src/lib/lsp-client.ts:140-163), with `JSON.parse`
abstracted as `decode`.  It is a pure function of the whole accumulated
buffer: the caller (the stdout handler, line 196) never truncates `stdout`,
so "consuming no bytes" is returning no messages. -/
def parseMessages {M : Type} (decode : List Char → Option M)
    (buffer : List Char) : List M :=
  parseMessagesAux decode buffer.length buffer

/-! ## JSON values and JS dynamic checks -/

/-- JSON values flowing through the client (results, params, errors). -/
inductive Json where
  | null
  | bool (b : Bool)
  | num (n : Int)
  | str (s : List Char)
  | arr (elems : List Json)
  | obj (fields : List (List Char × Json))

/-- JS truthiness of a value (`if (x)`, `x && y`): `null`/`undefined`,
`false`, `0` and `""` are falsy; objects and arrays are always truthy. -/
def truthy : Json → Bool
  | Json.null => false
  | Json.bool b => b
  | Json.num n => !(n = 0)
  | Json.str s => !(s = [])
  | Json.arr _ => true
  | Json.obj _ => true

/-- `typeof x === 'object'` (true for null, arrays and plain objects). -/
def isObjectType : Json → Bool
  | Json.null => true
  | Json.arr _ => true
  | Json.obj _ => true
  | _ => false

/-- `Array.isArray(x)`. -/
def isArrayJ : Json → Bool
  | Json.arr _ => true
  | _ => false

/-- JS property access `x[k]`: `none` models `undefined` (absent property or
non-object receiver). -/
def jsGet (j : Json) (k : List Char) : Option Json :=
  match j with
  | Json.obj fields => List.lookup k fields
  | _ => none

/-! ## Capability adapters (src/lib/lsp-client.ts:282-319, src/tools/lsp.ts) -/

/-- Driver-level outcome of `executeSession` as seen by an adapter: either a
rejection (timeout, process error, early exit, server error — all carrying a
message) or the matched response's `result` value. -/
abbrev SessionOutcome := Except (List Char) Json

/-- Result-normalization and error-swallowing of `getCompletions`
(src/lib/lsp-client.ts:282-301): `Array.isArray(result)` passes a bare array
through; `result && typeof result === 'object' && 'items' in result` unwraps
the `items` property; anything else — including every driver failure, via the
`catch` — yields `[]`. -/
def getCompletions (outcome : SessionOutcome) : Json :=
  match outcome with
  | Except.error _ => Json.arr []
  | Except.ok result =>
    if isArrayJ result then result
    else if truthy result && isObjectType result && (jsGet result "items".data).isSome then
      (jsGet result "items".data).getD Json.null
    else Json.arr []

/-- `getHover` (src/lib/lsp-client.ts:306-319): the driver result is returned
unchanged on success; every driver failure yields `null` via the `catch`. -/
def getHover (outcome : SessionOutcome) : Json :=
  match outcome with
  | Except.error _ => Json.null
  | Except.ok result => result

/-- The documentation extraction of `superDocs` (src/tools/lsp.ts:135-142):
starting from `documentation = null`, if the hover value is truthy then a
plain-string `contents` is taken as-is, and an object-typed truthy `contents`
contributes its `value` property. -/
def superDocsDoc (hover : Json) : Option Json :=
  if truthy hover then
    match jsGet hover "contents".data with
    | some (Json.str s) => some (Json.str s)
    | some c =>
      if truthy c && isObjectType c then jsGet c "value".data
      else none
    | none => none
  else none

/-! ## Session driver: the four writes (src/lib/lsp-client.ts:235-275) -/

/-- One message handed to `formatMessage` and written to the child's stdin
(the `jsonrpc: '2.0'` tag is added by `formatMessage` and elided here). -/
structure OutMessage where
  id : Option Nat
  method : List Char
  params : Json

/-- The synthetic document URI `file:///virtual/query.spq`. -/
def virtualUri : List Char := "file:///virtual/query.spq".data

/-- The exact sequence of writes `executeSession` issues on entry
(src/lib/lsp-client.ts:235-275), in program order, threading the `messageId`
counter (`let messageId = 0`, `messageId++` for initialize, then
`messageId = finalRequestId` with `finalRequestId = 3`). -/
def executeSessionWrites (pid : Nat) (query : List Char)
    (requestMethod : List Char) (requestParams : Json) : List OutMessage :=
  let messageId0 : Nat := 0
  let messageId1 : Nat := messageId0 + 1
  let finalRequestId : Nat := 3
  [ { id := some messageId1, method := "initialize".data,
      params := Json.obj [("processId".data, Json.num pid),
                          ("capabilities".data, Json.obj []),
                          ("rootUri".data, Json.null)] },
    { id := none, method := "initialized".data, params := Json.obj [] },
    { id := none, method := "textDocument/didOpen".data,
      params := Json.obj [("textDocument".data,
        Json.obj [("uri".data, Json.str virtualUri),
                  ("languageId".data, Json.str "spq".data),
                  ("version".data, Json.num 1),
                  ("text".data, Json.str query)])] },
    { id := some finalRequestId, method := requestMethod, params := requestParams } ]

/-! ## Session driver: event handling (src/lib/lsp-client.ts:184-233) -/

/-- The exclusive ways the `executeSession` promise can settle. -/
inductive Outcome where
  | resolvedResult (result : Json)
  | rejectedServerError (err : Json)
  | rejectedTimeout
  | rejectedProcError (msg : List Char)
  | rejectedEarlyExit (code : Int) (stderr : List Char)

/-- Settling this outcome is accompanied by `proc.kill()` in the source:
true for the matched-response paths (lines 200-210) and the timeout path
(lines 184-190); false for the `error` handler (lines 218-224) and the
`close` handler (lines 226-233), neither of which calls `proc.kill()`. -/
def Outcome.killedOnSettle : Outcome → Bool
  | Outcome.resolvedResult _ => true
  | Outcome.rejectedServerError _ => true
  | Outcome.rejectedTimeout => true
  | Outcome.rejectedProcError _ => false
  | Outcome.rejectedEarlyExit _ _ => false

/-- Asynchronous events delivered to the handlers `executeSession` installs. -/
inductive SessionEvent where
  | stdoutData (chunk : List Char)
  | stderrData (chunk : List Char)
  | timeoutFires
  | procError (msg : List Char)
  | procClose (code : Int)

/-- State local to one `executeSession` call: the accumulated streams, the
`resolved` flag, whether `clearTimeout` ran, how many times `proc.kill()` was
invoked, and the promise's settled outcome (`none` while pending). -/
structure SessionState where
  stdout : List Char
  stderr : List Char
  resolvedFlag : Bool
  timerCleared : Bool
  killCount : Nat
  outcome : Option Outcome

/-- The session state at the moment the handlers are installed. -/
def initialSession : SessionState :=
  { stdout := [], stderr := [], resolvedFlag := false, timerCleared := false,
    killCount := 0, outcome := none }

/-- Promise semantics: `resolve`/`reject` settle the promise only if it is
still pending; later calls are no-ops. -/
def settle (o : Outcome) (s : SessionState) : SessionState :=
  match s.outcome with
  | none => { s with outcome := some o }
  | some _ => s

/-- The condition `msg.id === finalRequestId` of the stdout scan (line 200),
with `finalRequestId = 3`. -/
def isFinalResponse (msg : Json) : Bool :=
  match jsGet msg "id".data with
  | some (Json.num n) => n == 3
  | _ => false

/-- How the promise settles once the matched response is found (lines
204-208): `reject(new Error(msg.error.message))` when `msg.error` is truthy,
`resolve(msg.result)` otherwise. -/
def responseOutcome (msg : Json) : Outcome :=
  match jsGet msg "error".data with
  | some err =>
    if truthy err then Outcome.rejectedServerError err
    else Outcome.resolvedResult ((jsGet msg "result".data).getD Json.null)
  | none => Outcome.resolvedResult ((jsGet msg "result".data).getD Json.null)

/-- One event-handler activation of `executeSession`
(src/lib/lsp-client.ts:184-233), with `JSON.parse` abstracted as `jsonParse`:

* stdout data: append the chunk, re-parse the whole buffer, and on the first
  message with the reserved id clear the timer, set `resolved`, kill the
  process, then reject with `msg.error` if that property is truthy, else
  resolve with `msg.result` (note: this handler does not consult `resolved`);
* stderr data: append to the captured diagnostics;
* timer fires: if not resolved, kill and reject with the timeout error;
* process `error` event: if not resolved, clear the timer and reject —
  without killing;
* process `close` event: if not resolved, clear the timer and reject with
  the exit code and captured stderr — without killing. -/
def executeSessionStep (jsonParse : List Char → Option Json)
    (s : SessionState) (e : SessionEvent) : SessionState :=
  match e with
  | SessionEvent.stdoutData chunk =>
    let s1 := { s with stdout := s.stdout ++ chunk }
    let messages := parseMessages jsonParse s1.stdout
    match messages.find? isFinalResponse with
    | none => s1
    | some msg =>
      let s2 := { s1 with timerCleared := true, resolvedFlag := true,
                          killCount := s1.killCount + 1 }
      settle (responseOutcome msg) s2
  | SessionEvent.stderrData chunk => { s with stderr := s.stderr ++ chunk }
  | SessionEvent.timeoutFires =>
    if s.resolvedFlag then s
    else settle Outcome.rejectedTimeout
      { s with resolvedFlag := true, killCount := s.killCount + 1 }
  | SessionEvent.procError msg =>
    if s.resolvedFlag then s
    else settle (Outcome.rejectedProcError msg)
      { s with timerCleared := true, resolvedFlag := true }
  | SessionEvent.procClose code =>
    if s.resolvedFlag then s
    else settle (Outcome.rejectedEarlyExit code s.stderr)
      { s with timerCleared := true, resolvedFlag := true }

/-- Run a whole session: fold the handler over the delivered events. -/
def runSession (jsonParse : List Char → Option Json)
    (events : List SessionEvent) : SessionState :=
  events.foldl (executeSessionStep jsonParse) initialSession

/-! ## Availability prober (src/lib/lsp-client.ts:64-110) -/

/-- Outcome of the `spawnSync(lspPath, ['--help'], {timeout: 2000, ...})`
probe: `error` models a set `result.error` (spawn failure or timeout kill),
`completed` a run that finished — with its exit status — leaving
`result.error` unset, and `thrown` a synchronous exception caught by the
surrounding `try`. -/
inductive SpawnSyncResult where
  | error (msg : List Char)
  | completed (status : Int) (stdout : List Char)
  | thrown (msg : List Char)

/-- `getLspPath` (src/lib/lsp-client.ts:64-66):
`process.env.SUPERDB_LSP_PATH || null` — note `||` maps the empty string
(falsy) to `null` as well. -/
def getLspPath (env : Option (List Char)) : Option (List Char) :=
  match env with
  | some s => if s = [] then none else some s
  | none => none

/-- The `{available, path, error}` record. -/
structure LSPAvailability where
  available : Bool
  path : Option (List Char)
  error : Option (List Char)
deriving DecidableEq

/-- The message reported when no path is configured. -/
def noPathError : List Char :=
  "SUPERDB_LSP_PATH environment variable not set. Install superdb-lsp for enhanced features.".data

/-- `checkLspAvailability` (src/lib/lsp-client.ts:71-110), with the
environment and the `spawnSync` probe passed explicitly: no configured path
reports unavailable with `noPathError`; a probe whose `result.error` is set
reports unavailable with the failure message; otherwise available — the exit
status of a completed probe is never inspected. -/
def checkLspAvailability (env : Option (List Char))
    (probe : List Char → SpawnSyncResult) : LSPAvailability :=
  match getLspPath env with
  | none => { available := false, path := none, error := some noPathError }
  | some lspPath =>
    match probe lspPath with
    | SpawnSyncResult.error m =>
      { available := false, path := some lspPath,
        error := some ("LSP server at ".data ++ lspPath ++ " failed to start: ".data ++ m) }
    | SpawnSyncResult.completed _ _ =>
      { available := true, path := some lspPath, error := none }
    | SpawnSyncResult.thrown m =>
      { available := false, path := some lspPath,
        error := some ("Failed to check LSP: ".data ++ m) }

/-! ## Module-level singletons (src/lib/lsp-client.ts:335-363, src/tools/lsp.ts:167-169) -/

/-- The module-level mutable variables `lspClient`, `lspCheckDone`,
`lspAvailable`; a client handle is identified by a number. -/
structure LspGlobals where
  lspClient : Option Nat
  lspCheckDone : Bool
  lspAvailable : Bool
deriving DecidableEq

/-- `getLspClient` (src/lib/lsp-client.ts:342-363) as a state transformer,
also reporting how many times `checkLspAvailability` ran during the call:
the probe runs only when `lspCheckDone` is still false; the
`new LSPClient()` constructor (which throws exactly when no path is
configured) runs only when no handle exists yet. -/
def getLspClient (env : Option (List Char)) (probe : List Char → SpawnSyncResult)
    (g : LspGlobals) : Option Nat × LspGlobals × Nat :=
  let checked :=
    if g.lspCheckDone then (g, 0)
    else ({ g with lspAvailable := (checkLspAvailability env probe).available,
                   lspCheckDone := true }, 1)
  let g1 := checked.1
  let probes := checked.2
  if !g1.lspAvailable then (none, g1, probes)
  else
    match g1.lspClient with
    | some h => (some h, g1, probes)
    | none =>
      if (getLspPath env).isSome then (some 0, { g1 with lspClient := some 0 }, probes)
      else (none, { g1 with lspAvailable := false }, probes)

/-- `getLspStatus` (src/tools/lsp.ts:167-169): its body is a plain call of
`checkLspAvailability()`, so it touches no cached state and performs one
fresh probe on every invocation. -/
def getLspStatus (env : Option (List Char)) (probe : List Char → SpawnSyncResult)
    (g : LspGlobals) : LSPAvailability × LspGlobals × Nat :=
  (checkLspAvailability env probe, g, 1)

/-! ## Claim-specific inputs -/

/-- A buffer that is a front fragment of a frame but not a whole frame:
either a strict front cut of some encoded frame, or a complete header
announcing `n` content characters followed by fewer than `n` characters —
the "partial second frame" of the decode-buffer claims. -/
def isPartialFrame (p : List Char) : Prop :=
  (∃ b k, k < (formatMessage b).length ∧ p = (formatMessage b).take k) ∨
  (∃ n tail, tail.length < n ∧ p = headerOf n ++ tail)

/-- The serialized body `JSON.stringify({jsonrpc:'2.0', method:'é'})` of a
protocol message whose method name is the non-ASCII string `"é"`:
30 UTF-16 code units but 31 UTF-8 bytes. -/
def accentBody : List Char := "\x7b\"jsonrpc\":\"2.0\",\"method\":\"é\"\x7d".data

/-! ## Framer lemmas -/

theorem dropLit_append (p rest : List Char) : dropLit p (p ++ rest) = some rest := by
  induction p with
  | nil => rfl
  | cons c cs ih => simp [dropLit, ih]

theorem dropLit_eq_some (p : List Char) :
    ∀ l r : List Char, dropLit p l = some r → l = p ++ r := by
  induction p with
  | nil => intro l r h; simpa [dropLit] using h
  | cons c cs ih =>
    intro l r h
    cases l with
    | nil => simp [dropLit] at h
    | cons d ds =>
      by_cases hd : d = c
      · subst hd
        simp only [dropLit, if_pos rfl] at h
        simpa using ih ds r h
      · simp [dropLit, hd] at h

theorem dropLit_none_of_short (p : List Char) :
    ∀ l : List Char, l.length < p.length → dropLit p l = none := by
  induction p with
  | nil => intro l h; simp at h
  | cons c cs ih =>
    intro l h
    cases l with
    | nil => rfl
    | cons d ds =>
      by_cases hd : d = c
      · simp only [dropLit, if_pos hd]
        exact ih ds (by simpa using h)
      · simp [dropLit, hd]

theorem digitChar_isDigit (d : Nat) (h : d < 10) : (Nat.digitChar d).isDigit = true := by
  interval_cases d <;> decide

theorem digitChar_toNat (d : Nat) (h : d < 10) : (Nat.digitChar d).toNat = 48 + d := by
  interval_cases d <;> decide

theorem natDigitsAux_isDigit (fuel : Nat) :
    ∀ n : Nat, ∀ c ∈ natDigitsAux fuel n, c.isDigit = true := by
  induction fuel with
  | zero => intro n c hc; simp [natDigitsAux] at hc
  | succ fuel ih =>
    intro n c hc
    by_cases h : n < 10
    · simp only [natDigitsAux, if_pos h, List.mem_singleton] at hc
      subst hc; exact digitChar_isDigit n h
    · simp only [natDigitsAux, if_neg h, List.mem_append, List.mem_singleton] at hc
      rcases hc with hc | hc
      · exact ih (n / 10) c hc
      · subst hc; exact digitChar_isDigit _ (Nat.mod_lt n (by norm_num))

theorem natDigits_isDigit (n : Nat) : ∀ c ∈ natDigits n, c.isDigit = true :=
  natDigitsAux_isDigit (n + 1) n

theorem natDigits_ne_nil (n : Nat) : natDigits n ≠ [] := by
  by_cases h : n < 10 <;> simp [natDigits, natDigitsAux, h]

theorem digitsToNat_append_singleton (l : List Char) (c : Char) :
    digitsToNat (l ++ [c]) = 10 * digitsToNat l + (c.toNat - 48) := by
  simp [digitsToNat, List.foldl_append]

theorem digitsToNat_natDigitsAux (fuel : Nat) :
    ∀ n : Nat, n < 10 ^ fuel → digitsToNat (natDigitsAux fuel n) = n := by
  induction fuel with
  | zero =>
    intro n h
    simp only [pow_zero, Nat.lt_one_iff] at h
    subst h; rfl
  | succ fuel ih =>
    intro n h
    by_cases hn : n < 10
    · simp only [natDigitsAux, if_pos hn]
      have := digitChar_toNat n hn
      simp [digitsToNat, this]
    · simp only [natDigitsAux, if_neg hn]
      rw [digitsToNat_append_singleton, ih (n / 10) ?_, digitChar_toNat _ (Nat.mod_lt n (by norm_num))]
      · omega
      · exact (Nat.div_lt_iff_lt_mul (by norm_num)).mpr (by rw [← pow_succ]; exact h)

theorem digitsToNat_natDigits (n : Nat) : digitsToNat (natDigits n) = n := by
  have hlt : n < 10 ^ n := Nat.lt_pow_self (by norm_num) n
  exact digitsToNat_natDigitsAux (n + 1) n
    (lt_of_lt_of_le hlt (Nat.pow_le_pow_right (by norm_num) (Nat.le_succ n)))

theorem crlf2_cons : crlf2 = '\r' :: "\n\r\n".data := rfl

theorem takeWhile_crlf (tail : List Char) :
    (crlf2 ++ tail).takeWhile Char.isDigit = [] := by
  rw [crlf2_cons]
  have h : Char.isDigit '\r' = false := by decide
  simp [List.takeWhile_cons, h]

theorem dropWhile_crlf (tail : List Char) :
    (crlf2 ++ tail).dropWhile Char.isDigit = crlf2 ++ tail := by
  rw [crlf2_cons]
  have h : Char.isDigit '\r' = false := by decide
  simp [List.dropWhile_cons, h]

theorem headerLit_length : headerLit.length = 16 := rfl

theorem crlf2_length : crlf2.length = 4 := rfl

theorem headerOf_length (n : Nat) :
    (headerOf n).length = 16 + (natDigits n).length + 4 := by
  simp [headerOf, List.length_append, headerLit_length, crlf2_length]
  omega

theorem matchHeader_headerOf (n : Nat) (tail : List Char) :
    matchHeader (headerOf n ++ tail) = some (n, (headerOf n).length) := by
  have hassoc : headerOf n ++ tail = headerLit ++ (natDigits n ++ (crlf2 ++ tail)) := by
    simp [headerOf]
  rw [hassoc]
  simp only [matchHeader, dropLit_append,
    List.takeWhile_append_of_pos (natDigits_isDigit n),
    List.dropWhile_append_of_pos (natDigits_isDigit n),
    takeWhile_crlf, dropWhile_crlf, List.append_nil]
  rw [if_neg (natDigits_ne_nil n)]
  simp only [dropLit_append, digitsToNat_natDigits, headerOf_length,
    headerLit_length, crlf2_length]

theorem matchHeader_pos (r : List Char) (cl hl : Nat)
    (h : matchHeader r = some (cl, hl)) : 0 < hl := by
  unfold matchHeader at h
  cases hd : dropLit headerLit r with
  | none => rw [hd] at h; exact absurd h (by simp)
  | some afterLit =>
    rw [hd] at h
    simp only at h
    by_cases hdig : afterLit.takeWhile Char.isDigit = []
    · rw [if_pos hdig] at h; exact absurd h (by simp)
    · rw [if_neg hdig] at h
      cases hc : dropLit crlf2 (afterLit.dropWhile Char.isDigit) with
      | none => rw [hc] at h; exact absurd h (by simp)
      | some rest2 =>
        rw [hc] at h
        have := (Option.some.injEq _ _).mp h
        have hhl : headerLit.length + (afterLit.takeWhile Char.isDigit).length + crlf2.length = hl :=
          congrArg Prod.snd this
        rw [headerLit_length, crlf2_length] at hhl
        omega

theorem matchHeader_nil : matchHeader ([] : List Char) = none := by decide

theorem parseMessagesAux_nil {M : Type} (decode : List Char → Option M) :
    ∀ f : Nat, parseMessagesAux decode f [] = [] := by
  intro f
  cases f with
  | zero => rfl
  | succ f => simp [parseMessagesAux, matchHeader_nil]

theorem parseMessagesAux_fuel {M : Type} (decode : List Char → Option M) :
    ∀ f₁ f₂ r, r.length ≤ f₁ → r.length ≤ f₂ →
      parseMessagesAux decode f₁ r = parseMessagesAux decode f₂ r := by
  intro f₁
  induction f₁ with
  | zero =>
    intro f₂ r h1 _
    have hr : r = [] := List.length_eq_zero.mp (Nat.le_zero.mp h1)
    subst hr
    rw [parseMessagesAux_nil, parseMessagesAux_nil]
  | succ f₁ ih =>
    intro f₂ r h1 h2
    cases f₂ with
    | zero =>
      have hr : r = [] := List.length_eq_zero.mp (Nat.le_zero.mp h2)
      subst hr
      rw [parseMessagesAux_nil, parseMessagesAux_nil]
    | succ f₂ =>
      simp only [parseMessagesAux]
      cases hm : matchHeader r with
      | none => rfl
      | some p =>
        obtain ⟨cl, hl⟩ := p
        dsimp only
        have hpos := matchHeader_pos r cl hl hm
        by_cases hlen : r.length < hl + cl
        · rw [if_pos hlen, if_pos hlen]
        · rw [if_neg hlen, if_neg hlen]
          have hrest1 : (r.drop (hl + cl)).length ≤ f₁ := by
            rw [List.length_drop]; omega
          have hrest2 : (r.drop (hl + cl)).length ≤ f₂ := by
            rw [List.length_drop]; omega
          cases decode ((r.drop hl).take cl) with
          | none => exact ih f₂ _ hrest1 hrest2
          | some m => rw [ih f₂ _ hrest1 hrest2]

/-- One iteration of the `while` loop of `parseMessages`: the header is
matched, completeness of the body is checked, the body is sliced out and
decoded (appended on success, skipped on failure), and scanning continues on
the remainder. -/
theorem parseMessages_eq {M : Type} (decode : List Char → Option M) (r : List Char) :
    parseMessages decode r =
      match matchHeader r with
      | none => []
      | some (cl, hl) =>
        if r.length < hl + cl then []
        else
          match decode ((r.drop hl).take cl) with
          | some m => m :: parseMessages decode (r.drop (hl + cl))
          | none => parseMessages decode (r.drop (hl + cl)) := by
  unfold parseMessages
  cases hr : r.length with
  | zero =>
    have hnil : r = [] := List.length_eq_zero.mp hr
    subst hnil
    simp [parseMessagesAux_nil, matchHeader_nil]
  | succ f =>
    simp only [parseMessagesAux]
    cases hm : matchHeader r with
    | none => rfl
    | some p =>
      obtain ⟨cl, hl⟩ := p
      dsimp only
      have hpos := matchHeader_pos r cl hl hm
      rw [hr]
      by_cases hlen : f + 1 < hl + cl
      · rw [if_pos hlen, if_pos hlen]
      · rw [if_neg hlen, if_neg hlen]
        have hfuel : parseMessagesAux decode f (r.drop (hl + cl)) =
            parseMessagesAux decode (r.drop (hl + cl)).length (r.drop (hl + cl)) := by
          apply parseMessagesAux_fuel
          · rw [List.length_drop]; omega
          · exact Nat.le_refl _
        cases decode ((r.drop hl).take cl) with
        | none => exact hfuel
        | some m => rw [hfuel]

theorem formatMessage_eq_headerOf (b : List Char) :
    formatMessage b = headerOf b.length ++ b := by
  simp [formatMessage, headerOf]

theorem parseMessages_none_of_no_header {M : Type} (decode : List Char → Option M)
    (buffer : List Char) (h : matchHeader buffer = none) :
    parseMessages decode buffer = [] := by
  rw [parseMessages_eq, h]

theorem parseMessages_short_body {M : Type} (decode : List Char → Option M)
    (n : Nat) (tail : List Char) (h : tail.length < n) :
    parseMessages decode (headerOf n ++ tail) = [] := by
  rw [parseMessages_eq, matchHeader_headerOf]
  dsimp only
  have hcond : (headerOf n ++ tail).length < (headerOf n).length + n := by
    rw [List.length_append]; omega
  rw [if_pos hcond]

/-- Extracting one leading complete frame: the sliced-out body is exactly the
encoded content, and scanning continues on the remainder of the buffer. -/
theorem parseMessages_frame_cons {M : Type} (decode : List Char → Option M)
    (b rest : List Char) :
    parseMessages decode (formatMessage b ++ rest) =
      match decode b with
      | some m => m :: parseMessages decode rest
      | none => parseMessages decode rest := by
  have h1 : formatMessage b ++ rest = headerOf b.length ++ (b ++ rest) := by
    simp [formatMessage, headerOf]
  rw [h1, parseMessages_eq, matchHeader_headerOf]
  dsimp only
  have hlen : ¬ (headerOf b.length ++ (b ++ rest)).length <
      (headerOf b.length).length + b.length := by
    simp only [List.length_append]; omega
  rw [if_neg hlen]
  have hbody : ((headerOf b.length ++ (b ++ rest)).drop (headerOf b.length).length).take
      b.length = b := by
    rw [List.drop_left]; exact List.take_left b rest
  have hrest : (headerOf b.length ++ (b ++ rest)).drop
      ((headerOf b.length).length + b.length) = rest := by
    rw [← List.append_assoc]
    exact List.drop_left' (by simp [List.length_append])
  rw [hbody, hrest]

theorem takeWhile_crlf_take (m : Nat) :
    (crlf2.take m).takeWhile Char.isDigit = [] ∧
    (crlf2.take m).dropWhile Char.isDigit = crlf2.take m := by
  cases m with
  | zero => simp
  | succ m =>
    rw [crlf2_cons]
    have h : Char.isDigit '\r' = false := by decide
    simp [List.takeWhile_cons, List.dropWhile_cons, h]

/-- A strict front fragment of a frame header never matches the header
regexp: either the literal is incomplete, the digit run is not yet followed
by the double CRLF, or the double CRLF itself is cut short. -/
theorem matchHeader_take_headerOf (n k : Nat) (hk : k < (headerOf n).length) :
    matchHeader ((headerOf n).take k) = none := by
  have hassoc : headerOf n = headerLit ++ (natDigits n ++ crlf2) := by
    simp [headerOf]
  rw [headerOf_length] at hk
  by_cases h16 : k < 16
  · have ht : (headerOf n).take k = headerLit.take k := by
      rw [hassoc, List.take_append_eq_append_take]
      have h0 : k - headerLit.length = 0 := by rw [headerLit_length]; omega
      simp [h0]
    rw [ht]
    have hshort : dropLit headerLit (headerLit.take k) = none := by
      apply dropLit_none_of_short
      rw [List.length_take, headerLit_length]
      omega
    simp [matchHeader, hshort]
  · have hle : 16 ≤ k := by omega
    have ht : (headerOf n).take k = headerLit ++ (natDigits n ++ crlf2).take (k - 16) := by
      rw [hassoc, List.take_append_eq_append_take, headerLit_length,
        List.take_of_length_le (by rw [headerLit_length]; omega)]
    rw [ht]
    set j := k - 16 with hj
    have hjlt : j < (natDigits n).length + 4 := by omega
    by_cases hjd : j ≤ (natDigits n).length
    · have hX : (natDigits n ++ crlf2).take j = (natDigits n).take j := by
        rw [List.take_append_eq_append_take]
        have h0 : j - (natDigits n).length = 0 := by omega
        simp [h0]
      rw [hX]
      have hdig : ∀ c ∈ (natDigits n).take j, Char.isDigit c = true := fun c hc =>
        natDigits_isDigit n c (List.mem_of_mem_take hc)
      have htw : ((natDigits n).take j).takeWhile Char.isDigit = (natDigits n).take j :=
        List.takeWhile_eq_self_iff.mpr hdig
      have hdw : ((natDigits n).take j).dropWhile Char.isDigit = [] :=
        List.dropWhile_eq_nil_iff.mpr hdig
      simp only [matchHeader, dropLit_append, htw, hdw]
      by_cases hnil : (natDigits n).take j = []
      · rw [if_pos hnil]
      · rw [if_neg hnil]
        have : dropLit crlf2 ([] : List Char) = none := by rw [crlf2_cons]; rfl
        rw [this]
    · have hdlt : (natDigits n).length < j := by omega
      have hX : (natDigits n ++ crlf2).take j =
          natDigits n ++ crlf2.take (j - (natDigits n).length) := by
        rw [List.take_append_eq_append_take,
          List.take_of_length_le (by omega : (natDigits n).length ≤ j)]
      rw [hX]
      simp only [matchHeader, dropLit_append,
        List.takeWhile_append_of_pos (natDigits_isDigit n),
        List.dropWhile_append_of_pos (natDigits_isDigit n),
        (takeWhile_crlf_take (j - (natDigits n).length)).1,
        (takeWhile_crlf_take (j - (natDigits n).length)).2,
        List.append_nil]
      rw [if_neg (natDigits_ne_nil n)]
      have hshort : dropLit crlf2 (crlf2.take (j - (natDigits n).length)) = none := by
        apply dropLit_none_of_short
        rw [List.length_take, crlf2_length]
        omega
      rw [hshort]

/-- A strict front fragment of a whole frame yields no message: a cut inside
the header fails the regexp, and a cut inside the body fails the
`remaining.length < headerLength + contentLength` completeness check. -/
theorem parseMessages_take_frame {M : Type} (decode : List Char → Option M)
    (b : List Char) (k : Nat) (hk : k < (formatMessage b).length) :
    parseMessages decode ((formatMessage b).take k) = [] := by
  rw [formatMessage_eq_headerOf] at hk ⊢
  rw [List.length_append] at hk
  by_cases hkhl : k < (headerOf b.length).length
  · have ht : (headerOf b.length ++ b).take k = (headerOf b.length).take k := by
      rw [List.take_append_eq_append_take]
      have h0 : k - (headerOf b.length).length = 0 := by omega
      simp [h0]
    rw [ht]
    exact parseMessages_none_of_no_header decode _ (matchHeader_take_headerOf b.length k hkhl)
  · have hle : (headerOf b.length).length ≤ k := by omega
    have ht : (headerOf b.length ++ b).take k =
        headerOf b.length ++ b.take (k - (headerOf b.length).length) := by
      rw [List.take_append_eq_append_take, List.take_of_length_le hle]
    rw [ht]
    apply parseMessages_short_body
    rw [List.length_take]
    omega

/-! ## Claim theorems: message framer -/

/-- **C1** (code bug): `formatMessage` announces `content.length`, the UTF-16
code-unit count, not the UTF-8 byte length the wire format requires.  On the
message body `{"jsonrpc":"2.0","method":"é"}` — 30 code units, 31 UTF-8
bytes — the produced frame's header announces 30, which is the code-unit
count and differs from the UTF-8 byte length, so the framing is not
reproduced bit-for-bit for non-ASCII bodies. -/
theorem c1_contentLength_counts_code_units_not_utf8_bytes :
    utf8ByteLength accentBody = 31 ∧
    (matchHeader (formatMessage accentBody)).map Prod.fst = some accentBody.length ∧
    (matchHeader (formatMessage accentBody)).map Prod.fst ≠ some (utf8ByteLength accentBody) := by
  refine ⟨by decide, by decide, by decide⟩

/-- **C4**: round-trip law of the framer — encoding any message body with
`formatMessage` and then decoding the resulting wire string with
`parseMessages` yields back exactly the original body, unchanged (the
decoder applied to the sliced-out body is the identity here, so the list of
decoded messages is exactly the list of original bodies). -/
theorem c4_framer_roundtrip (content : List Char) :
    parseMessages Option.some (formatMessage content) = [content] := by
  have h := parseMessages_frame_cons Option.some content []
  rw [List.append_nil] at h
  rw [h]
  rw [parseMessages_none_of_no_header Option.some [] matchHeader_nil]

/-- **C5**: a buffer holding one complete frame followed by a partial second
frame decodes to exactly the first frame's message, and the partial
remainder alone decodes to zero messages (so nothing of it is consumed; the
caller's accumulated buffer keeps it for the next call).  In particular a
header announcing `n` content characters followed by fewer than `n`
characters yields zero messages. -/
theorem c5_one_frame_then_partial {M : Type} (decode : List Char → Option M)
    (b : List Char) (m : M) (p : List Char)
    (hdec : decode b = some m) (hp : isPartialFrame p) :
    parseMessages decode (formatMessage b ++ p) = [m] ∧
    parseMessages decode p = [] := by
  have hpnil : parseMessages decode p = [] := by
    rcases hp with ⟨b', k, hk, rfl⟩ | ⟨n, tail, hlt, rfl⟩
    · exact parseMessages_take_frame decode b' k hk
    · exact parseMessages_short_body decode n tail hlt
  refine ⟨?_, hpnil⟩
  rw [parseMessages_frame_cons, hdec]
  dsimp only
  rw [hpnil]

/-- Witness for C5 at a concrete input: the frame for body `"ab"` followed by
a header announcing 5 characters but carrying only `"xy"`. -/
theorem c5_witness :
    parseMessages Option.some (formatMessage "ab".data ++ (headerOf 5 ++ "xy".data)) =
      ["ab".data] ∧
    parseMessages Option.some (headerOf 5 ++ "xy".data) = ([] : List (List Char)) :=
  c5_one_frame_then_partial Option.some "ab".data "ab".data (headerOf 5 ++ "xy".data) rfl
    (Or.inr ⟨5, "xy".data, by decide, rfl⟩)

/-- **C10**: the scanner recovers only from a frame whose body fails to
decode (the frame is skipped and scanning continues); when the buffer's
current position does not match the exact header regexp, the loop breaks
with no messages — it never scans forward for a later header, so well-formed
frames after garbage are unreachable (and the caller never trims the buffer,
so they stay unreachable on every later call). -/
theorem c10_no_resync_after_garbage {M : Type} (decode : List Char → Option M) :
    (∀ buffer, matchHeader buffer = none → parseMessages decode buffer = []) ∧
    (∀ b rest, decode b = none →
      parseMessages decode (formatMessage b ++ rest) = parseMessages decode rest) := by
  constructor
  · exact fun buffer h => parseMessages_none_of_no_header decode buffer h
  · intro b rest hdec
    rw [parseMessages_frame_cons, hdec]

/-- Witness for C10 at concrete inputs: a buffer led by the junk character
`x` yields nothing although a complete well-formed frame follows; a frame
whose two-character body is rejected by the decoder is skipped and the
following frame is still decoded. -/
theorem c10_witness :
    parseMessages Option.some ("x".data ++ formatMessage "\x7b\x7d".data) =
      ([] : List (List Char)) ∧
    parseMessages (fun s => if s.length = 2 then none else some s)
        (formatMessage "\x7b\x7d".data ++ formatMessage "abc".data) =
      parseMessages (fun s => if s.length = 2 then none else some s)
        (formatMessage "abc".data) :=
  ⟨(c10_no_resync_after_garbage Option.some).1 _ (by decide),
   (c10_no_resync_after_garbage (fun s => if s.length = 2 then none else some s)).2
     "\x7b\x7d".data _ (by decide)⟩

/-! ## Claim theorems: session writes and capability adapters -/

/-- **C3**: every session writes exactly four messages in strict program
order — the initialize request with id 1 (minimal capabilities, null root),
the initialized notification without id, the didOpen notification without id
declaring the synthetic document (fixed URI, language id `spq`, version 1,
the query text), and the capability request with the fixed reserved id 3 —
so the ids issued within a session are `[1, 3]`: pairwise distinct and
monotonically increasing, with the reserved id distinct from the
initialize id. -/
theorem c3_four_writes_in_order (pid : Nat) (query requestMethod : List Char)
    (requestParams : Json) :
    (executeSessionWrites pid query requestMethod requestParams).map OutMessage.id =
      [some 1, none, none, some 3] ∧
    (executeSessionWrites pid query requestMethod requestParams).map OutMessage.method =
      ["initialize".data, "initialized".data, "textDocument/didOpen".data, requestMethod] ∧
    (executeSessionWrites pid query requestMethod requestParams)[0]? =
      some { id := some 1, method := "initialize".data,
             params := Json.obj [("processId".data, Json.num pid),
                                 ("capabilities".data, Json.obj []),
                                 ("rootUri".data, Json.null)] } ∧
    (executeSessionWrites pid query requestMethod requestParams)[2]? =
      some { id := none, method := "textDocument/didOpen".data,
             params := Json.obj [("textDocument".data,
               Json.obj [("uri".data, Json.str virtualUri),
                         ("languageId".data, Json.str "spq".data),
                         ("version".data, Json.num 1),
                         ("text".data, Json.str query)])] } ∧
    (executeSessionWrites pid query requestMethod requestParams)[3]? =
      some { id := some 3, method := requestMethod, params := requestParams } ∧
    (3 : Nat) ≠ 1 ∧
    (executeSessionWrites pid query requestMethod requestParams).filterMap OutMessage.id =
      [1, 3] ∧
    List.Pairwise (· < ·)
      ((executeSessionWrites pid query requestMethod requestParams).filterMap OutMessage.id) := by
  refine ⟨rfl, rfl, rfl, rfl, rfl, by decide, rfl, ?_⟩
  have h : (executeSessionWrites pid query requestMethod requestParams).filterMap
      OutMessage.id = [1, 3] := rfl
  rw [h]
  decide

/-- **C7**: `getCompletions` flattens both accepted result shapes — a bare
array passes through, an object with an `items` property yields that
property (in particular `{items: [{label: "avg"}]}` yields
`[{label: "avg"}]`) — and every driver-level failure yields the empty
sequence; being a total function of the driver outcome, it propagates no
exception. -/
theorem c7_getCompletions_flattens_and_swallows (xs : List Json)
    (fs : List (List Char × Json)) (v : Json) (e : List Char)
    (hv : List.lookup "items".data fs = some v) :
    getCompletions (Except.ok (Json.arr xs)) = Json.arr xs ∧
    getCompletions (Except.ok (Json.obj fs)) = v ∧
    getCompletions (Except.error e) = Json.arr [] ∧
    getCompletions (Except.ok (Json.obj [("items".data,
        Json.arr [Json.obj [("label".data, Json.str "avg".data)]])])) =
      Json.arr [Json.obj [("label".data, Json.str "avg".data)]] := by
  refine ⟨rfl, ?_, rfl, rfl⟩
  simp [getCompletions, jsGet, truthy, isObjectType, isArrayJ, hv]

/-- Witness for C7 at a concrete input: an object wrapping `items`. -/
theorem c7_witness :
    getCompletions (Except.ok (Json.obj [("items".data, Json.num 7)])) = Json.num 7 ∧
    getCompletions (Except.error "LSP request timed out after 5000ms".data) = Json.arr [] :=
  ⟨(c7_getCompletions_flattens_and_swallows [] [("items".data, Json.num 7)] (Json.num 7)
      "LSP request timed out after 5000ms".data rfl).2.1,
   (c7_getCompletions_flattens_and_swallows [] [("items".data, Json.num 7)] (Json.num 7)
      "LSP request timed out after 5000ms".data rfl).2.2.1⟩

/-- **C8**: `getHover` yields the explicit null value — not an empty
sequence — on every driver-level failure; and the documentation extraction
of `superDocs` passes plain-string hover contents through unchanged while
normalizing structured `{kind, value}` contents to the `value` string. -/
theorem c8_getHover_null_and_contents_normalized (e s k v : List Char) :
    getHover (Except.error e) = Json.null ∧
    Json.null ≠ Json.arr [] ∧
    superDocsDoc (Json.obj [("contents".data, Json.str s)]) = some (Json.str s) ∧
    superDocsDoc (Json.obj [("contents".data,
        Json.obj [("kind".data, Json.str k), ("value".data, Json.str v)])]) =
      some (Json.str v) := by
  refine ⟨rfl, fun h => Json.noConfusion h, rfl, rfl⟩

/-! ## Claim theorems: availability prober and process-wide singletons -/

/-- **C6 counterexample**: a configured path whose probe runs to completion
with the non-zero exit status 1 is reported *available* — the code never
inspects the exit status, refuting the claim that a non-zero or abnormal
exit is reported unavailable. -/
theorem c6_counterexample_nonzero_exit_reported_available :
    (checkLspAvailability (some "/usr/local/bin/superdb-lsp".data)
      (fun _ => SpawnSyncResult.completed 1 [])).available = true := rfl

/-- **C6 amended**: with no configured path (unset or empty variable), the
result is unavailable with a null path and the non-null explanatory message;
with a configured path, one probe runs, and the result is unavailable with a
non-null reason exactly when the probe's `error` field is set (spawn failure
or timeout) or the probe throws — a probe that completes without error is
reported available regardless of its exit status. -/
theorem c6_availability_probe (env : Option (List Char))
    (probe : List Char → SpawnSyncResult) :
    (getLspPath env = none →
      checkLspAvailability env probe =
        { available := false, path := none, error := some noPathError }) ∧
    (∀ p m, getLspPath env = some p → probe p = SpawnSyncResult.error m →
      (checkLspAvailability env probe).available = false ∧
      (checkLspAvailability env probe).path = some p ∧
      (checkLspAvailability env probe).error ≠ none) ∧
    (∀ p st out, getLspPath env = some p → probe p = SpawnSyncResult.completed st out →
      checkLspAvailability env probe =
        { available := true, path := some p, error := none }) ∧
    (∀ p m, getLspPath env = some p → probe p = SpawnSyncResult.thrown m →
      (checkLspAvailability env probe).available = false ∧
      (checkLspAvailability env probe).error ≠ none) := by
  refine ⟨?_, ?_, ?_, ?_⟩
  · intro h
    simp [checkLspAvailability, h]
  · intro p m hp hm
    simp [checkLspAvailability, hp, hm]
  · intro p st out hp hs
    simp [checkLspAvailability, hp, hs]
  · intro p m hp hm
    simp [checkLspAvailability, hp, hm]

/-- Witness for C6 at concrete inputs: an unset variable, and a configured
path whose probe fails to spawn. -/
theorem c6_witness :
    checkLspAvailability none (fun _ => SpawnSyncResult.completed 0 []) =
      { available := false, path := none, error := some noPathError } ∧
    (checkLspAvailability (some "/opt/lsp".data)
      (fun _ => SpawnSyncResult.error "spawn ENOENT".data)).available = false :=
  ⟨(c6_availability_probe none (fun _ => SpawnSyncResult.completed 0 [])).1 rfl,
   ((c6_availability_probe (some "/opt/lsp".data)
       (fun _ => SpawnSyncResult.error "spawn ENOENT".data)).2.1
     "/opt/lsp".data "spawn ENOENT".data rfl rfl).1⟩

/-- **C9 counterexample**: even in a state where the availability check has
already been performed and cached (`lspCheckDone = true`), a `getLspStatus`
call performs one fresh probe — its probe count is 1, not 0 — refuting the
claim that no later call via `getLspStatus` re-probes the executable. -/
theorem c9_counterexample_getLspStatus_reprobes :
    ¬ ((getLspStatus (some "/usr/local/bin/superdb-lsp".data)
        (fun _ => SpawnSyncResult.completed 0 [])
        { lspClient := some 0, lspCheckDone := true, lspAvailable := true }).2.2 = 0) := by
  decide

/-- **C9 amended**: the caching protects only `getLspClient`: once
`lspCheckDone` is set, a `getLspClient` call performs no probe, and when a
client handle already exists (with availability cached as true) it is
returned as-is with the globals unchanged — the handle is constructed at
most once.  `getLspStatus`, by contrast, performs one fresh probe on every
call (and the code has no reset hook; tests observe this uncached
behaviour). -/
theorem c9_cache_scope (env : Option (List Char))
    (probe : List Char → SpawnSyncResult) (g : LspGlobals) :
    (g.lspCheckDone = true → (getLspClient env probe g).2.2 = 0) ∧
    (∀ h, g.lspCheckDone = true → g.lspAvailable = true → g.lspClient = some h →
      getLspClient env probe g = (some h, g, 0)) ∧
    (getLspStatus env probe g).2.2 = 1 := by
  refine ⟨?_, ?_, rfl⟩
  · intro hdone
    simp [getLspClient, hdone]
    split
    · rfl
    · cases hcl : g.lspClient with
      | some h => simp [hcl]
      | none => by_cases hp : (getLspPath env).isSome <;> simp [hcl, hp]
  · intro h hdone hav hcl
    simp [getLspClient, hdone, hav, hcl]

/-- Witness for C9 at a concrete input: a post-check state with an existing
handle. -/
theorem c9_witness :
    getLspClient (some "/opt/lsp".data) (fun _ => SpawnSyncResult.completed 0 [])
      { lspClient := some 0, lspCheckDone := true, lspAvailable := true } =
      (some 0, { lspClient := some 0, lspCheckDone := true, lspAvailable := true }, 0) :=
  (c9_cache_scope (some "/opt/lsp".data) (fun _ => SpawnSyncResult.completed 0 [])
    { lspClient := some 0, lspCheckDone := true, lspAvailable := true }).2.1
    0 rfl rfl rfl

theorem settle_outcome_of_some (x o : Outcome) (s : SessionState)
    (h : s.outcome = some o) : (settle x s).outcome = some o := by
  simp [settle, h]

theorem settle_outcome_of_none (x : Outcome) (s : SessionState)
    (h : s.outcome = none) : (settle x s).outcome = some x := by
  simp [settle, h]

theorem settle_killCount (x : Outcome) (s : SessionState) :
    (settle x s).killCount = s.killCount := by
  unfold settle
  split <;> rfl

/-- Every settled value of the matched-response path is a kill-accompanied
outcome (a result resolution or a server-error rejection). -/
theorem responseOutcome_killedOnSettle (msg : Json) :
    (responseOutcome msg).killedOnSettle = true := by
  unfold responseOutcome
  split
  · split <;> rfl
  · rfl

/-! ## Claim theorems: session driver event handling -/

/-- **C2 counterexample**: a session whose only event is an early `close`
(exit code 1) resolves — the promise settles with the early-exit rejection —
yet `proc.kill()` is never invoked during the whole session, refuting the
claim that on *every* resolution the spawned process is terminated by the
driver. -/
theorem c2_counterexample_early_exit_resolves_without_kill :
    (runSession (fun _ => none) [SessionEvent.procClose 1]).outcome =
      some (Outcome.rejectedEarlyExit 1 []) ∧
    (runSession (fun _ => none) [SessionEvent.procClose 1]).killCount = 0 :=
  ⟨rfl, rfl⟩

/-- **C2 amended**: exactly one outcome fires — once the promise is settled,
no later event can change the outcome — and `proc.kill()` accompanies a
resolution exactly on the matched-response paths (success or server error)
and the timeout path; resolutions via the process `error` event or an early
`close` event issue no kill (the process failed to spawn or has already
exited on its own). -/
theorem c2_settle_once_and_kill_on_response_or_timeout
    (jsonParse : List Char → Option Json) (s : SessionState) (e : SessionEvent) :
    (∀ o, s.outcome = some o → (executeSessionStep jsonParse s e).outcome = some o) ∧
    (∀ o, s.outcome = none → (executeSessionStep jsonParse s e).outcome = some o →
      (executeSessionStep jsonParse s e).killCount =
        s.killCount + (if o.killedOnSettle then 1 else 0)) := by
  constructor
  · intro o ho
    cases e with
    | stdoutData chunk =>
      simp only [executeSessionStep]
      cases (parseMessages jsonParse (s.stdout ++ chunk)).find? isFinalResponse with
      | none => simpa using ho
      | some msg => exact settle_outcome_of_some _ o _ (by simpa using ho)
    | stderrData chunk => simpa using ho
    | timeoutFires =>
      by_cases hres : s.resolvedFlag
      · simpa [executeSessionStep, hres] using ho
      · simp only [executeSessionStep, hres, Bool.false_eq_true, if_false]
        exact settle_outcome_of_some _ o _ (by simpa using ho)
    | procError m =>
      by_cases hres : s.resolvedFlag
      · simpa [executeSessionStep, hres] using ho
      · simp only [executeSessionStep, hres, Bool.false_eq_true, if_false]
        exact settle_outcome_of_some _ o _ (by simpa using ho)
    | procClose c =>
      by_cases hres : s.resolvedFlag
      · simpa [executeSessionStep, hres] using ho
      · simp only [executeSessionStep, hres, Bool.false_eq_true, if_false]
        exact settle_outcome_of_some _ o _ (by simpa using ho)
  · intro o ho hstep
    revert hstep
    cases e with
    | stdoutData chunk =>
      simp only [executeSessionStep]
      cases (parseMessages jsonParse (s.stdout ++ chunk)).find? isFinalResponse with
      | none =>
        intro hstep
        simp [ho] at hstep
      | some msg =>
        intro hstep
        rw [settle_outcome_of_none _ _ (by simpa using ho)] at hstep
        have hom : o = responseOutcome msg := by
          exact (Option.some.injEq _ _).mp hstep.symm
        subst hom
        rw [settle_killCount, responseOutcome_killedOnSettle]
        simp
    | stderrData chunk =>
      intro hstep
      simp [executeSessionStep, ho] at hstep
    | timeoutFires =>
      by_cases hres : s.resolvedFlag <;> intro hstep
      · simp [executeSessionStep, hres, ho] at hstep
      · simp only [executeSessionStep, hres, Bool.false_eq_true, if_false] at hstep ⊢
        rw [settle_outcome_of_none _ _ (by simpa using ho)] at hstep
        have hom : o = Outcome.rejectedTimeout := (Option.some.injEq _ _).mp hstep.symm
        subst hom
        rw [settle_killCount]
        simp [Outcome.killedOnSettle]
    | procError m =>
      by_cases hres : s.resolvedFlag <;> intro hstep
      · simp [executeSessionStep, hres, ho] at hstep
      · simp only [executeSessionStep, hres, Bool.false_eq_true, if_false] at hstep ⊢
        rw [settle_outcome_of_none _ _ (by simpa using ho)] at hstep
        have hom : o = Outcome.rejectedProcError m := (Option.some.injEq _ _).mp hstep.symm
        subst hom
        rw [settle_killCount]
        simp [Outcome.killedOnSettle]
    | procClose c =>
      by_cases hres : s.resolvedFlag <;> intro hstep
      · simp [executeSessionStep, hres, ho] at hstep
      · simp only [executeSessionStep, hres, Bool.false_eq_true, if_false] at hstep ⊢
        rw [settle_outcome_of_none _ _ (by simpa using ho)] at hstep
        have hom : o = Outcome.rejectedEarlyExit c s.stderr :=
          (Option.some.injEq _ _).mp hstep.symm
        subst hom
        rw [settle_killCount]
        simp [Outcome.killedOnSettle]

/-- Witness for C2 at concrete inputs: an early close resolves without a
kill, and a pre-settled state is untouched by a timeout event. -/
theorem c2_witness :
    (executeSessionStep (fun _ => none) initialSession (SessionEvent.procClose 1)).killCount =
      initialSession.killCount +
        (if (Outcome.rejectedEarlyExit 1 []).killedOnSettle then 1 else 0) ∧
    (executeSessionStep (fun _ => none)
        { initialSession with outcome := some Outcome.rejectedTimeout }
        SessionEvent.timeoutFires).outcome = some Outcome.rejectedTimeout :=
  ⟨(c2_settle_once_and_kill_on_response_or_timeout (fun _ => none) initialSession
      (SessionEvent.procClose 1)).2 (Outcome.rejectedEarlyExit 1 []) rfl rfl,
   (c2_settle_once_and_kill_on_response_or_timeout (fun _ => none)
      { initialSession with outcome := some Outcome.rejectedTimeout }
      SessionEvent.timeoutFires).1 Outcome.rejectedTimeout rfl⟩

end SuperdbMcp
